import Mathlib

/-!
Verification development for the audition-marker to MP3 chapter-tag converter.

The Go sources are shallowly embedded:
  * Go byte slices and Go strings inside the binary CTOC codec are `List Nat`
    (a Go string is a byte sequence; every byte value is below 256).
  * Go `time.Duration` (an `int64` count of nanoseconds) is `Int`.
  * Go `int` indices that can be the sentinel `-1` are `Int`; once known to be
    non-negative they are converted to `Nat`.
  * IEEE-754 `float64` values are exact rationals represented as unreduced
    fractions (`Frac`). The time parser's arithmetic is modelled exactly;
    every numeral in its verified inputs is a dyadic rational that a
    `float64` represents exactly and every intermediate operation on them is
    exact, so the model and the binary computation agree on them. The
    duration formatter's `Hours`/`Minutes`/`Seconds` conversions are instead
    modelled with full binary64 semantics: `roundFloat` rounds an exact
    fraction to the nearest representable `float64` value (53-bit
    significand, ties to even), and every float operation rounds its exact
    result through it.
  * Fallible Go functions returning `(T, error)` are `Except String T`;
    error strings keep the literal format text of the source (the `%v`-expanded
    text of a wrapped inner error is not reproduced byte-for-byte).
-/

/-- UTF-8 bytes of an ASCII string: for the ASCII identifiers and titles used
by this program, the byte sequence of a Go string literal equals the list of
its code points. -/
def strBytes (s : String) : List Nat :=
  s.data.map Char.toNat

/-- Modelled from the spec: the external tag-container library's text frame
(the collaborator providing the embedded title sub-frame). Its payload is one
encoding-marker byte followed by the text bytes, and the UTF-8 marker is 3. -/
structure TextFrame where
  Encoding : Nat
  Text : List Nat
  deriving DecidableEq, Repr

/-- Modelled from the spec: the text frame's reported size, the byte length of
its payload (1 encoding-marker byte + text bytes). -/
def TextFrame.Size (t : TextFrame) : Nat :=
  1 + t.Text.length

/-- Modelled from the spec: the text frame's serialized payload,
1 encoding-marker byte followed by the text bytes. -/
def TextFrame.WriteTo (t : TextFrame) : List Nat :=
  t.Encoding :: t.Text

/-- The CTOC frame value (source: `CTOCFrame` struct). -/
structure CTOCFrame where
  ElementID : List Nat
  IsTopLevel : Bool
  IsOrdered : Bool
  ChildIDs : List (List Nat)
  Title : Option TextFrame
  deriving DecidableEq, Repr

/-- The flags byte written by `CTOCFrame.WriteTo`: bit 0 set when top-level,
bit 1 set when ordered. -/
def ctocFlagsByte (cf : CTOCFrame) : Nat :=
  (if cf.IsTopLevel then 1 else 0) ||| (if cf.IsOrdered then 2 else 0)

/-- The child-id section of the serialized CTOC body: each child id followed
by a null terminator, in order (source: the `for _, id := range cf.ChildIDs`
loop of `CTOCFrame.WriteTo`). -/
def childIDsBytes : List (List Nat) → List Nat
  | [] => []
  | cid :: rest => (cid ++ [0]) ++ childIDsBytes rest

/-- Big-endian bytes of `uint32(n)` (source: the four `byte(size >> k)`
writes of `CTOCFrame.WriteTo`). -/
def uint32Bytes (n : Nat) : List Nat :=
  [n % 4294967296 / 16777216 % 256,
   n % 4294967296 / 65536 % 256,
   n % 4294967296 / 256 % 256,
   n % 4294967296 % 256]

/-- The optional title sub-frame section of the serialized CTOC body:
"TIT2", the 4-byte big-endian payload size, two zero flag bytes, then the
text frame payload (source: the `if cf.Title != nil` block of
`CTOCFrame.WriteTo`). -/
def titleSubframeBytes : Option TextFrame → List Nat
  | none => []
  | some t => strBytes "TIT2" ++ uint32Bytes t.Size ++ [0, 0] ++ t.WriteTo

/-- Source: `CTOCFrame.Size` — element id plus terminator, one flags byte, one
entry-count byte, each child id plus terminator, and 10 header bytes plus the
title's size when a title is present. -/
def CTOCFrame.Size (cf : CTOCFrame) : Nat :=
  cf.ElementID.length + 1 + 1 + 1
    + cf.ChildIDs.foldl (fun acc cid => acc + (cid.length + 1)) 0
    + (match cf.Title with
       | none => 0
       | some t => 10 + t.Size)

/-- Source: `CTOCFrame.WriteTo` — the full byte stream written to the writer.
The entry-count byte is `byte(len(cf.ChildIDs))`, i.e. the length modulo 256. -/
def CTOCFrame.WriteTo (cf : CTOCFrame) : List Nat :=
  (cf.ElementID ++ [0])
    ++ [ctocFlagsByte cf]
    ++ [cf.ChildIDs.length % 256]
    ++ childIDsBytes cf.ChildIDs
    ++ titleSubframeBytes cf.Title

/-- Index of the first zero byte of a list, if any (source: the
`for i, b := range rawData` scan of `extractCTOCInfo`). -/
def findZeroIdx : List Nat → Option Nat
  | [] => none
  | b :: rest => if b = 0 then some 0 else (findZeroIdx rest).map (· + 1)

/-- Index of the first zero byte at position `pos` or later (source: the
`for endPos < len(data) && data[endPos] != 0` scan of `extractChildIDs`). -/
def findZeroFrom (data : List Nat) (pos : Nat) : Option Nat :=
  (findZeroIdx (data.drop pos)).map (· + pos)

/-- Source: the loop body of `extractChildIDs`. The first argument of the
recursion is the number of ids still to read; `pos` is the current scan
position. Reading stops early, without error, when the data runs out before
a null terminator is found or when `pos` reaches the end. -/
def extractChildIDsGo (data : List Nat) : Nat → Nat → List (List Nat) × Nat
  | 0, pos => ([], pos)
  | k + 1, pos =>
    if pos < data.length then
      match findZeroFrom data pos with
      | none => ([], pos)
      | some endPos =>
        let cid := (data.drop pos).take (endPos - pos)
        let r := extractChildIDsGo data k (endPos + 1)
        (cid :: r.1, r.2)
    else ([], pos)

/-- Source: `extractChildIDs` — reads up to `count` null-terminated child ids
and returns them with the final scan position. -/
def extractChildIDs (data : List Nat) (count : Nat) : List (List Nat) × Nat :=
  extractChildIDsGo data count 0

/-- Source: the `for i := startPos; i < len(data)-4; i++` loop of
`extractTitleFromCTOC`, with the remaining number of iterations as fuel.
At the first occurrence of "TIT2" the loop skips 10 header bytes, reads one
encoding-marker byte, and reads the title up to a null terminator for
encodings 0 and 3, or up to 50 bytes or a null for any other encoding; if the
position after the 10-byte skip is past the end the whole scan stops with an
empty result. -/
def titleLoopAux (data : List Nat) : Nat → Nat → List Nat
  | _, 0 => []
  | i, fuel + 1 =>
    if (data.drop i).take 4 = [84, 73, 84, 50] then
      if data.length ≤ i + 10 then []
      else
        let encoding := data.getD (i + 10) 0
        if encoding = 0 ∨ encoding = 3 then
          (data.drop (i + 11)).takeWhile (fun b => b != 0)
        else
          ((data.drop (i + 11)).take 50).takeWhile (fun b => b != 0)
    else titleLoopAux data (i + 1) fuel

/-- Source: `extractTitleFromCTOC` — scans `data` from `startPos` for the
literal bytes "TIT2" and extracts the embedded title, or returns the empty
string. The loop bound `i < len(data)-4` of the source is mirrored by the
fuel `data.length - 4 - startPos`. -/
def extractTitleFromCTOC (data : List Nat) (startPos : Nat) : List Nat :=
  titleLoopAux data startPos (data.length - 4 - startPos)

/-- The parsed table-of-contents information (source: `CTOCInfo` struct). -/
structure CTOCInfo where
  Title : List Nat
  IsTopLevel : Bool
  IsOrdered : Bool
  ChildIDs : List (List Nat)
  deriving DecidableEq, Repr

/-- Source: `extractCTOCInfo` applied to the raw body bytes of a CTOC frame.
`idEnd` is the index of the element-id terminator, the flags byte is at
`idEnd + 1`, the entry count at `idEnd + 2`, and the child-id data starts at
`idEnd + 3`. The title scan starts at `countPos + 1 + len(childIDs)*2`,
exactly as in the source. -/
def extractCTOCInfo (rawData : List Nat) : Except String CTOCInfo :=
  if rawData.length < 3 then .error "CTOC frame data is incomplete"
  else
    match findZeroIdx rawData with
    | none => .error "ElementID not found in CTOC frame"
    | some idEnd =>
      if rawData.length ≤ idEnd + 2 then .error "Insufficient data length in CTOC frame"
      else
        let flags := rawData.getD (idEnd + 1) 0
        let entryCount := rawData.getD (idEnd + 2) 0
        let childIDs := (extractChildIDs (rawData.drop (idEnd + 3)) entryCount).1
        .ok { Title := extractTitleFromCTOC rawData (idEnd + 3 + childIDs.length * 2),
              IsTopLevel := flags &&& 1 != 0,
              IsOrdered := flags &&& 2 != 0,
              ChildIDs := childIDs }

/-- Specification-side reading of the claim: the variant of `extractCTOCInfo`
whose title scan begins at the first byte position after the last consumed
child id (the final scan position returned by `extractChildIDs`), instead of
the source's `countPos + 1 + len(childIDs)*2`. -/
def extractCTOCInfoClaimed (rawData : List Nat) : Except String CTOCInfo :=
  if rawData.length < 3 then .error "CTOC frame data is incomplete"
  else
    match findZeroIdx rawData with
    | none => .error "ElementID not found in CTOC frame"
    | some idEnd =>
      if rawData.length ≤ idEnd + 2 then .error "Insufficient data length in CTOC frame"
      else
        let flags := rawData.getD (idEnd + 1) 0
        let r := extractChildIDs (rawData.drop (idEnd + 3)) (rawData.getD (idEnd + 2) 0)
        .ok { Title := extractTitleFromCTOC rawData (idEnd + 3 + r.2),
              IsTopLevel := flags &&& 1 != 0,
              IsOrdered := flags &&& 2 != 0,
              ChildIDs := r.1 }

/-- Specification-side definition: the position of the first occurrence of the
literal bytes "TIT2" at index `start` or later, where a full 4-byte window
must exist strictly inside the data (the source's loop bound
`i < len(data)-4` never lets a match end at the final byte). -/
def firstTIT2From (data : List Nat) (start : Nat) : Option Nat :=
  (List.range (data.length - 4)).find?
    (fun i => decide (start ≤ i) && ((data.drop i).take 4 == [84, 73, 84, 50]))

/-- Specification-side definition of the title scan, following the claim's
words: find the first "TIT2" at or after `start`, skip 10 sub-header bytes,
read one encoding-marker byte, then read up to a null terminator for
encodings 0 and 3, or up to 50 bytes or a null for any other encoding. -/
def specTitleScan (data : List Nat) (start : Nat) : List Nat :=
  match firstTIT2From data start with
  | none => []
  | some i =>
    if data.length ≤ i + 10 then []
    else if data.getD (i + 10) 0 = 0 ∨ data.getD (i + 10) 0 = 3 then
      (data.drop (i + 11)).takeWhile (fun b => b != 0)
    else
      ((data.drop (i + 11)).take 50).takeWhile (fun b => b != 0)

/-- Value of a list of decimal digit characters (most significant first). -/
def natVal (cs : List Char) : Nat :=
  cs.foldl (fun a c => a * 10 + (c.toNat - 48)) 0

/-- An exact rational as an unreduced fraction: an integer numerator over a
positive natural denominator. Used to model the time codec's `float64`
values; every numeral of the verified inputs is a dyadic rational that a
`float64` represents exactly, and every operation on them is exact, so this
model and the binary floating-point computation agree on them. -/
abbrev Frac : Type := Int × Nat

/-- The rational value of a fraction. -/
def fracVal (a : Frac) : Rat :=
  (a.1 : Rat) / (a.2 : Rat)

/-- Exact sum of two fractions. -/
def fracAdd (a b : Frac) : Frac :=
  (a.1 * (b.2 : Int) + b.1 * (a.2 : Int), a.2 * b.2)

/-- Exact product of a fraction and an integer. -/
def fracMulInt (a : Frac) (c : Int) : Frac :=
  (a.1 * c, a.2)

/-- Truncation of a fraction toward zero, the behaviour of Go's conversion
from `float64` to the integer type `time.Duration`. -/
def truncFrac (a : Frac) : Int :=
  a.1.tdiv (a.2 : Int)

/-- Modelled from the spec: the collaborator `strconv.ParseFloat` restricted
to the plain decimal numbers the marker format uses — an optional sign,
digits, and an optional fractional part. The result is the exact rational
value of the literal; for the dyadic inputs of the verified claims this
coincides with the correctly rounded `float64`. -/
def parseFloatGo (s : String) : Option Frac :=
  let p : Int × List Char :=
    match s.data with
    | '-' :: r => (-1, r)
    | '+' :: r => (1, r)
    | r => (1, r)
  match p.2.splitOn '.' with
  | [ip] =>
    if ip ≠ [] ∧ ip.all Char.isDigit then
      some (p.1 * (natVal ip : Int), 1)
    else none
  | [ip, fp] =>
    if (ip ≠ [] ∨ fp ≠ []) ∧ ip.all Char.isDigit ∧ fp.all Char.isDigit then
      some (p.1 * ((natVal ip : Int) * (10 ^ fp.length : Int) + (natVal fp : Int)),
            10 ^ fp.length)
    else none
  | _ => none

/-- Source: `strings.Split` — splits a string at every occurrence of the
separator character. -/
def goSplit (s : String) (sep : Char) : List String :=
  (s.data.splitOn sep).map (fun cs => ⟨cs⟩)

/-- Source: `parseTimeString` — decimal seconds, `MM:SS.mmm`, or
`HH:MM:SS.mmm`, combined as seconds and converted to nanoseconds. The
source's `float64` arithmetic is modelled exactly over `Frac`; the `%v` text
of the wrapped `strconv` error is not reproduced inside the error strings. -/
def parseTimeString (timeStr : String) : Except String Int :=
  match parseFloatGo timeStr with
  | some seconds => .ok (truncFrac (fracMulInt seconds 1000000000))
  | none =>
    if timeStr.data.contains ':' then
      match goSplit timeStr ':' with
      | [p1, p2] =>
        match parseFloatGo p1 with
        | none => .error "invalid minutes format"
        | some minutes =>
          match parseFloatGo p2 with
          | none => .error "invalid seconds format"
          | some seconds =>
            .ok (truncFrac (fracMulInt (fracAdd (fracMulInt minutes 60) seconds) 1000000000))
      | [p1, p2, p3] =>
        match parseFloatGo p1 with
        | none => .error "invalid hours format"
        | some hours =>
          match parseFloatGo p2 with
          | none => .error "invalid minutes format"
          | some minutes =>
            match parseFloatGo p3 with
            | none => .error "invalid seconds format"
            | some seconds =>
              .ok (truncFrac (fracMulInt
                (fracAdd (fracAdd (fracMulInt hours 3600) (fracMulInt minutes 60)) seconds)
                1000000000))
      | _ => .error ("unsupported time format: " ++ timeStr)
    else .error ("unsupported time format: " ++ timeStr)

/-- Whitespace predicate of `strings.TrimSpace` restricted to the ASCII
space characters that marker files can contain. -/
def isSpaceGo (c : Char) : Bool :=
  c == ' ' || c == '\t' || c == '\n' || c == '\r' || c == '\x0b' || c == '\x0c'

/-- Source: `strings.TrimSpace` — removes leading and trailing whitespace. -/
def goTrim (s : String) : String :=
  ⟨((s.data.dropWhile isSpaceGo).reverse.dropWhile isSpaceGo).reverse⟩

/-- Checks that `pat` occurs at the head of `cs`. -/
def matchesAt : List Char → List Char → Bool
  | [], _ => true
  | _ :: _, [] => false
  | p :: ps, c :: cs => p == c && matchesAt ps cs

/-- Checks that `pat` occurs contiguously somewhere in `cs`. -/
def containsSeq (pat : List Char) : List Char → Bool
  | [] => pat.isEmpty
  | c :: cs => matchesAt pat (c :: cs) || containsSeq pat cs

/-- Source: `strings.Contains` — substring test. -/
def strContainsSub (s pat : String) : Bool :=
  containsSeq pat.data s.data

/-- Source: `strings.ToLower` for the ASCII header cells of marker files. -/
def goToLower (s : String) : String :=
  ⟨s.data.map Char.toLower⟩

/-- Source: the inner `for j, cell := range row` scan of `ParseAuditionCSV`'s
header search. A cell containing "name" (case-insensitively) sets the name
column, otherwise one containing "start" sets the start-time column; the last
matching cell wins. `-1` is the not-yet-found sentinel. -/
def scanHeaderRow : List String → Nat → Int → Int → Int × Int
  | [], _, n, s => (n, s)
  | cell :: rest, j, n, s =>
    let cellLower := goToLower (goTrim cell)
    if strContainsSub cellLower "name" then scanHeaderRow rest (j + 1) (j : Int) s
    else if strContainsSub cellLower "start" then scanHeaderRow rest (j + 1) n (j : Int)
    else scanHeaderRow rest (j + 1) n s

/-- Source: the outer `for i, row := range records` header search of
`ParseAuditionCSV`. Column indices accumulate across rows; the first row after
which both are known is the header, and the rows after it are the data rows. -/
def findHeaderRows : List (List String) → Int → Int → Option (Nat × Nat × List (List String))
  | [], _, _ => none
  | row :: rest, n, s =>
    if row.length > 0 then
      let p := scanHeaderRow row 0 n s
      if 0 ≤ p.1 ∧ 0 ≤ p.2 then some (p.1.toNat, p.2.toNat, rest)
      else findHeaderRows rest p.1 p.2
    else findHeaderRows rest n s

/-- A parsed marker (source: `MarkerEntry` — a name and a start time in
nanoseconds). -/
structure MarkerEntry where
  Name : String
  StartTime : Int
  deriving DecidableEq, Repr

/-- Source: the `for _, row := range records` marker loop of
`ParseAuditionCSV` (after the header). Rows without enough columns are
skipped, rows whose trimmed name is empty are skipped, and a start-time parse
failure aborts the whole parse with an error naming the offending string. -/
def parseMarkersLoop : List (List String) → Nat → Nat → Except String (List MarkerEntry)
  | [], _, _ => .ok []
  | row :: rest, nameIdx, startTimeIdx =>
    if row.length ≤ Nat.max nameIdx startTimeIdx then parseMarkersLoop rest nameIdx startTimeIdx
    else
      let name := goTrim (row.getD nameIdx "")
      if name = "" then parseMarkersLoop rest nameIdx startTimeIdx
      else
        let startTimeStr := goTrim (row.getD startTimeIdx "")
        match parseTimeString startTimeStr with
        | .error e => .error ("failed to parse start time '" ++ startTimeStr ++ "': " ++ e)
        | .ok t =>
          match parseMarkersLoop rest nameIdx startTimeIdx with
          | .error e => .error e
          | .ok ms => .ok ({ Name := name, StartTime := t } :: ms)

/-- Source: `ParseAuditionCSV` from the point where the tab-separated records
have been read (the file and CSV-reader plumbing is out of scope): a table
with at most one row yields no markers, otherwise the header is located and
the rows after it are parsed. -/
def parseAuditionCSV (records : List (List String)) : Except String (List MarkerEntry) :=
  if records.length ≤ 1 then .ok []
  else
    match findHeaderRows records (-1) (-1) with
    | some (nameIdx, startTimeIdx, dataRows) => parseMarkersLoop dataRows nameIdx startTimeIdx
    | none => .error "CSV format error: could not find Name and Start columns"

/-- Fuel-driven base-2 logarithm: `log2Fuel fuel n` is the floor of the
base-2 logarithm of `n` for `1 ≤ n ≤ fuel`. -/
def log2Fuel : Nat → Nat → Nat
  | 0, _ => 0
  | fuel + 1, n => if 2 ≤ n then log2Fuel fuel (n / 2) + 1 else 0

/-- Floor of the base-2 logarithm of a positive natural number. -/
def myLog2 (n : Nat) : Nat :=
  log2Fuel n n

/-- Floor of the base-2 logarithm of the positive fraction `a / d`. -/
def floorLog2F (a d : Nat) : Int :=
  if d ≤ a then (myLog2 (a / d) : Int)
  else if d ≤ a * 2 ^ myLog2 (d / a) then -(myLog2 (d / a) : Int)
  else -(myLog2 (d / a) : Int) - 1

/-- Rounding of the fraction `a / b` to the nearest natural number, ties to
even — the rounding of an IEEE-754 significand. -/
def rhe (a b : Nat) : Nat :=
  let q := a / b
  let r := a % b
  if 2 * r < b then q
  else if b < 2 * r then q + 1
  else if q % 2 = 0 then q else q + 1

/-- The exact value of the IEEE-754 binary64 number nearest to an exact
fraction (round to nearest, ties to even): the fraction is scaled so that
its significand lies in `[2^52, 2^53)`, the scaled value is rounded half to
even, and the result is the exact rational value of that float. Overflow and
subnormals cannot arise for the magnitudes this program computes (every
non-zero intermediate value lies between `2^-45` and `2^63`). -/
def roundFloat (x : Frac) : Frac :=
  if x.1 = 0 then (0, 1)
  else
    let a := x.1.natAbs
    let e := floorLog2F a x.2
    if 52 ≤ e then
      (x.1.sign * (rhe a (x.2 * 2 ^ (e - 52).toNat) : Int) * 2 ^ (e - 52).toNat, 1)
    else
      (x.1.sign * (rhe (a * 2 ^ (52 - e).toNat) x.2 : Int), 2 ^ (52 - e).toNat)

/-- Go's conversion of an integer to `float64` (rounds for magnitudes beyond
`2^53`). -/
def floatOfInt (x : Int) : Frac :=
  roundFloat (x, 1)

/-- IEEE-754 binary64 division for a divisor with non-negative value: the
exact quotient rounded to the nearest representable value. -/
def fdiv (x y : Frac) : Frac :=
  roundFloat (x.1 * (y.2 : Int), x.2 * y.1.toNat)

/-- IEEE-754 binary64 addition: the exact sum rounded to the nearest
representable value. -/
def fadd (x y : Frac) : Frac :=
  roundFloat (fracAdd x y)

/-- Go standard library collaborator `time.Duration.Hours`:
`float64(d / Hour) + float64(d % Hour) / (60*60*1e9)` in binary64
arithmetic. -/
def durationHours (d : Int) : Frac :=
  fadd (floatOfInt (d.tdiv 3600000000000))
    (fdiv (floatOfInt (d.tmod 3600000000000)) ((3600000000000 : Int), 1))

/-- Go standard library collaborator `time.Duration.Minutes`:
`float64(d / Minute) + float64(d % Minute) / (60*1e9)` in binary64
arithmetic. -/
def durationMinutes (d : Int) : Frac :=
  fadd (floatOfInt (d.tdiv 60000000000))
    (fdiv (floatOfInt (d.tmod 60000000000)) ((60000000000 : Int), 1))

/-- Go standard library collaborator `time.Duration.Seconds`:
`float64(d / Second) + float64(d % Second) / 1e9` in binary64 arithmetic. -/
def durationSeconds (d : Int) : Frac :=
  fadd (floatOfInt (d.tdiv 1000000000))
    (fdiv (floatOfInt (d.tmod 1000000000)) ((1000000000 : Int), 1))

/-- Decimal text of an integer padded to two digits (the `%02d` verb for the
values this program formats). -/
def padTwo (n : Int) : String :=
  if 0 ≤ n ∧ n < 10 then "0" ++ toString n else toString n

/-- Decimal text of an integer padded to three digits (the `%03d` verb for
the values this program formats). -/
def padThree (n : Int) : String :=
  if 0 ≤ n ∧ n < 10 then "00" ++ toString n
  else if 0 ≤ n ∧ n < 100 then "0" ++ toString n
  else toString n

/-- Source: `FormatDuration` over a duration in nanoseconds. The source
computes `int(d.Hours())`, `int(d.Minutes()) % 60`, `int(d.Seconds()) % 60`
and `int(d.Milliseconds()) % 1000`; the float64-valued
`Hours`/`Minutes`/`Seconds` library calls are modelled with full binary64
rounding semantics (`durationHours` and friends) and the `int(...)`
conversions truncate the float value toward zero; `Milliseconds` is integer
division in the library and stays integer division here. -/
def FormatDuration (d : Int) : String :=
  let hours := truncFrac (durationHours d)
  let minutes := (truncFrac (durationMinutes d)).tmod 60
  let seconds := (truncFrac (durationSeconds d)).tmod 60
  let millis := (d.tdiv 1000000).tmod 1000
  if 0 < hours then
    toString hours ++ ":" ++ padTwo minutes ++ ":" ++ padTwo seconds ++ "." ++ padThree millis
  else
    toString minutes ++ ":" ++ padTwo seconds ++ "." ++ padThree millis

/-- Specification-side definition of duration formatting, following the
claim's words: hours, minutes, seconds and milliseconds are obtained by
truncating division on successive remainders, and the text is `H:MM:SS.mmm`
when hours are positive, else `M:SS.mmm`. -/
def specFormatDuration (d : Int) : String :=
  let hours := d.tdiv 3600000000000
  let hourRem := d.tmod 3600000000000
  let minutes := hourRem.tdiv 60000000000
  let minRem := hourRem.tmod 60000000000
  let seconds := minRem.tdiv 1000000000
  let millis := (d.tmod 1000000000).tdiv 1000000
  if 0 < hours then
    toString hours ++ ":" ++ padTwo minutes ++ ":" ++ padTwo seconds ++ "." ++ padThree millis
  else
    toString minutes ++ ":" ++ padTwo seconds ++ "." ++ padThree millis

/-- Modelled from the spec: the title text frame stored inside tag-level
chapter and table-of-contents frames (the collaborator library's text frame
at the text level; encoding key 3 is UTF-8). -/
structure TextFrameT where
  Encoding : Nat
  Text : String
  deriving DecidableEq, Repr

/-- A frame stored in the tag container (the two frame kinds this program
creates; the container may also hold frames of other kinds, which the
operations below never touch because they select frames by identifier). -/
inductive Frame where
  | chap (elementID : String) (startTime : Int)
      (endTime startOffset endOffset : Nat) (title : Option TextFrameT)
  | ctoc (elementID : String) (isTopLevel isOrdered : Bool)
      (childIDs : List String) (title : Option TextFrameT)
  deriving DecidableEq, Repr

/-- The tag container's frame storage: frames listed with their four-letter
frame identifiers, in insertion order (the collaborator library's
`AddFrame`/`DeleteFrames`/`GetFrames` interface). -/
abbrev Tag : Type := List (String × Frame)

/-- Modelled from the spec: the collaborator's `tag.AddFrame(id, frame)`. -/
def addFrame (t : Tag) (id : String) (f : Frame) : Tag :=
  t ++ [(id, f)]

/-- Modelled from the spec: the collaborator's `tag.DeleteFrames(id)` —
removes every frame stored under `id`. -/
def deleteFrames (t : Tag) (id : String) : Tag :=
  t.filter (fun p => p.1 != id)

/-- Number of frames stored under `id`. -/
def countFrames (t : Tag) (id : String) : Nat :=
  (t.filter (fun p => p.1 == id)).length

/-- The collaborator library's `IgnoredOffset` sentinel (`0xFFFFFFFF`). -/
def ignoredOffset : Nat := 4294967295

/-- Source: `createChapterFrame` — a chapter frame with the given element id,
start time, ignored end time and offsets, and a UTF-8 title. -/
def createChapterFrame (elementID : String) (title : String) (startTime : Int) : Frame :=
  .chap elementID startTime ignoredOffset ignoredOffset ignoredOffset
    (some { Encoding := 3, Text := title })

/-- Source: `createCTOCFrame` — a table-of-contents frame; the title frame is
present exactly when the title text is non-empty. -/
def createCTOCFrame (elementID : String) (isTopLevel isOrdered : Bool)
    (childIDs : List String) (title : String) : Frame :=
  .ctoc elementID isTopLevel isOrdered childIDs
    (if title = "" then none else some { Encoding := 3, Text := title })

/-- Source: the `for i, marker := range markers` loop of `addChapterFrames`.
`i` is the marker's position in the list handed to the assembly; markers with
blank names are skipped without consuming an element id. Returns the updated
tag and the collected child element ids in order. -/
def chapterLoop : Tag → Nat → List MarkerEntry → Tag × List String
  | t, _, [] => (t, [])
  | t, i, m :: rest =>
    if goTrim m.Name = "" then chapterLoop t (i + 1) rest
    else
      let eid := "chp" ++ toString i
      let r := chapterLoop (addFrame t "CHAP" (createChapterFrame eid m.Name m.StartTime))
        (i + 1) rest
      (r.1, eid :: r.2)

/-- Source: `addChapterFrames` — deletes all existing CHAP and CTOC frames,
then adds one chapter frame per non-blank marker and, when at least one
chapter was added, a single table-of-contents frame "toc" (top-level,
ordered, titled "Table of Contents") listing the chapter element ids. -/
def addChapterFrames (tag : Tag) (markers : List MarkerEntry) : Tag :=
  let t := deleteFrames (deleteFrames tag "CHAP") "CTOC"
  if markers.length = 0 then t
  else
    let r := chapterLoop t 0 markers
    if r.2.length = 0 then r.1
    else addFrame r.1 "CTOC" (createCTOCFrame "toc" true true r.2 "Table of Contents")

/-- Number of markers whose trimmed name is non-blank — the markers that
survive the assembly's filter. -/
def validCount (markers : List MarkerEntry) : Nat :=
  (markers.filter (fun m => goTrim m.Name != "")).length

/-- Element ids of the chapter frames stored in a tag, in storage order. -/
def chapElementIDs (t : Tag) : List String :=
  t.filterMap (fun p =>
    match p with
    | ("CHAP", .chap eid _ _ _ _ _) => some eid
    | _ => none)

/-- Child-id lists of the table-of-contents frames stored in a tag. -/
def ctocChildIDs (t : Tag) : List (List String) :=
  t.filterMap (fun p =>
    match p with
    | ("CTOC", .ctoc _ _ _ cids _) => some cids
    | _ => none)

/-- The concrete CTOC frame of the round-trip claim: element id "toc",
top-level, ordered, children "chp0" and "chp1", titled "Table of Contents". -/
def tocFrame1 : CTOCFrame :=
  { ElementID := strBytes "toc",
    IsTopLevel := true,
    IsOrdered := true,
    ChildIDs := [strBytes "chp0", strBytes "chp1"],
    Title := some { Encoding := 3, Text := strBytes "Table of Contents" } }

/-- A CTOC body whose single child id contains the bytes "TIT2" followed by
bytes shaped like a text sub-frame: element id "e", flags 0, declared count 1,
then the 15-byte child id `QQTIT2ABCDEF\x03Hi` and its null terminator. -/
def data4 : List Nat :=
  [101, 0, 0, 1, 81, 81, 84, 73, 84, 50, 65, 66, 67, 68, 69, 70, 3, 72, 105, 0]

/-- The parse of `data4` produced by the source reader: the title bytes "Hi"
come from inside the child-id region. -/
def info4 : CTOCInfo :=
  { Title := [72, 105],
    IsTopLevel := false,
    IsOrdered := false,
    ChildIDs := [[81, 81, 84, 73, 84, 50, 65, 66, 67, 68, 69, 70, 3, 72, 105]] }

/-- The marker table of the end-to-end claim: a header row, then three valid
rows and one blank-name row at data index 2. -/
def table5 : List (List String) :=
  [["Name", "Start"],
   ["Intro", "0.0"],
   ["Second", "1.0"],
   ["", "2.0"],
   ["Third", "3.0"]]

/-- The markers the CSV parser produces from `table5`: the blank-name row is
already gone. -/
def markers5 : List MarkerEntry :=
  [{ Name := "Intro", StartTime := 0 },
   { Name := "Second", StartTime := 1000000000 },
   { Name := "Third", StartTime := 3000000000 }]

/-- A CTOC frame with 256 child ids, exceeding the one-byte entry count. -/
def cfBig : CTOCFrame :=
  { ElementID := [99],
    IsTopLevel := false,
    IsOrdered := false,
    ChildIDs := List.replicate 256 [100],
    Title := none }

deriving instance DecidableEq for Except

theorem childIDsBytes_length (l : List (List Nat)) :
    (childIDsBytes l).length = (l.map (fun cid => cid.length + 1)).sum := by
  induction l with
  | nil => rfl
  | cons a t ih => simp [childIDsBytes, ih]; omega

theorem size_foldl_eq_sum (l : List (List Nat)) :
    ∀ a : Nat, l.foldl (fun acc cid => acc + (cid.length + 1)) a
      = a + (l.map (fun cid => cid.length + 1)).sum := by
  induction l with
  | nil => intro a; simp
  | cons x t ih => intro a; simp [ih]; omega

theorem titleSubframeBytes_length (o : Option TextFrame) :
    (titleSubframeBytes o).length
      = (match o with | none => 0 | some t => 10 + t.Size) := by
  cases o with
  | none => rfl
  | some t =>
    simp [titleSubframeBytes, TextFrame.WriteTo, TextFrame.Size, strBytes, uint32Bytes]
    omega

/-- C1: serializing a CTOC frame with element id "toc", isTopLevel = true,
isOrdered = true, child ids "chp0" and "chp1", and title "Table of Contents"
via `CTOCFrame.WriteTo` and deserializing the bytes via `extractCTOCInfo`
yields a `CTOCInfo` with both flags true, the same child ids in order, and
the title "Table of Contents". -/
theorem ctocRoundTrip_C1 :
    extractCTOCInfo (CTOCFrame.WriteTo tocFrame1) =
      .ok { Title := strBytes "Table of Contents", IsTopLevel := true, IsOrdered := true,
            ChildIDs := [strBytes "chp0", strBytes "chp1"] } := by
  decide

/-- C2: for every CTOC frame value, the number of bytes `CTOCFrame.WriteTo`
writes equals `CTOCFrame.Size`, and that size is the element-id length plus
its terminator, one flags byte, one count byte, each child id's length plus
its terminator, and — when a title is present — 10 sub-header bytes plus the
title frame's size. -/
theorem writeToLength_C2 (cf : CTOCFrame) :
    (CTOCFrame.WriteTo cf).length = CTOCFrame.Size cf
    ∧ CTOCFrame.Size cf = cf.ElementID.length + 1 + 1 + 1
        + ((cf.ChildIDs.map (fun cid => cid.length + 1)).sum)
        + (match cf.Title with | none => 0 | some t => 10 + t.Size) := by
  constructor
  · simp [CTOCFrame.WriteTo, CTOCFrame.Size, childIDsBytes_length,
      titleSubframeBytes_length, size_foldl_eq_sum]
    omega
  · simp [CTOCFrame.Size, size_foldl_eq_sum]

/-- C10: the child-count byte written by `CTOCFrame.WriteTo` (the byte right
after the element id's terminator and the flags byte) is the number of child
ids reduced modulo 256, while the child-id section still serializes every
child id null-terminated; so for a frame with more than 255 child ids the
declared count differs from the number of child ids actually serialized. -/
theorem childCount_C10 (cf : CTOCFrame) (h : 255 < cf.ChildIDs.length) :
    (CTOCFrame.WriteTo cf).getD (cf.ElementID.length + 2) 0 = cf.ChildIDs.length % 256
    ∧ childIDsBytes cf.ChildIDs
        = cf.ChildIDs.foldr (fun cid acc => cid ++ [0] ++ acc) []
    ∧ cf.ChildIDs.length % 256 ≠ cf.ChildIDs.length := by
  refine ⟨?_, ?_, ?_⟩
  · have harr : CTOCFrame.WriteTo cf
        = cf.ElementID ++ (0 :: ctocFlagsByte cf :: cf.ChildIDs.length % 256 ::
            (childIDsBytes cf.ChildIDs ++ titleSubframeBytes cf.Title)) := by
      simp [CTOCFrame.WriteTo]
    rw [harr, List.getD_append_right _ _ _ _ (by omega)]
    simp
  · induction cf.ChildIDs with
    | nil => rfl
    | cons a t ih => simp [childIDsBytes, ih]
  · have hlt : cf.ChildIDs.length % 256 < 256 := Nat.mod_lt _ (by omega)
    omega

/-- Witness for C10 at a concrete frame with 256 one-byte child ids. -/
theorem childCount_C10_witness :
    (CTOCFrame.WriteTo cfBig).getD (cfBig.ElementID.length + 2) 0 = cfBig.ChildIDs.length % 256
    ∧ childIDsBytes cfBig.ChildIDs
        = cfBig.ChildIDs.foldr (fun cid acc => cid ++ [0] ++ acc) []
    ∧ cfBig.ChildIDs.length % 256 ≠ cfBig.ChildIDs.length :=
  childCount_C10 cfBig (by
    have h : cfBig.ChildIDs.length = 256 := by
      rw [show cfBig.ChildIDs = List.replicate 256 [100] from rfl, List.length_replicate]
    omega)

/-- C8: the time parser maps "90.5", "1:30.500" and "0:01:30.500" to the same
duration of 90500 milliseconds (90500000000 nanoseconds). -/
theorem timeParse_C8 :
    parseTimeString "90.5" = .ok (90500 * 1000000)
    ∧ parseTimeString "1:30.500" = .ok (90500 * 1000000)
    ∧ parseTimeString "0:01:30.500" = .ok (90500 * 1000000) := by
  refine ⟨by decide, by decide, by decide⟩

/-- C5 fails on the code: for the marker table with three valid rows and a
blank-name row at data index 2, the full conversion yields chapter element
ids "chp0", "chp1", "chp2" — not "chp0", "chp1", "chp3" — because the CSV
parser has already dropped the blank row before `addChapterFrames` assigns
indices. -/
theorem chapterIDs_C5_counterexample :
    parseAuditionCSV table5 = .ok markers5
    ∧ chapElementIDs (addChapterFrames [] markers5) ≠ ["chp0", "chp1", "chp3"] := by
  refine ⟨by decide, by decide⟩

/-- C5 amended: the conversion of `table5` produces exactly three chapter
frames with element ids "chp0", "chp1", "chp2" (contiguous, because the
blank-name row is removed by the CSV parser before index assignment) and one
TOC frame whose child ids are exactly those three ids in that order. -/
theorem chapterIDs_C5_amended :
    parseAuditionCSV table5 = .ok markers5
    ∧ chapElementIDs (addChapterFrames [] markers5) = ["chp0", "chp1", "chp2"]
    ∧ ctocChildIDs (addChapterFrames [] markers5) = [["chp0", "chp1", "chp2"]]
    ∧ countFrames (addChapterFrames [] markers5) "CHAP" = 3
    ∧ countFrames (addChapterFrames [] markers5) "CTOC" = 1 := by
  refine ⟨by decide, by decide, by decide, by decide, by decide⟩

/-- C7 amended: in the marker loop, a row with too few cells is skipped, a
row whose trimmed name is empty is skipped, and a row whose trimmed
start-time cell fails to parse aborts the whole parse with an error whose
message contains that trimmed start-time string — never a per-row skip. -/
theorem markerRows_C7 :
    (∀ (row : List String) (rest : List (List String)) (nameIdx startTimeIdx : Nat),
        row.length ≤ Nat.max nameIdx startTimeIdx →
        parseMarkersLoop (row :: rest) nameIdx startTimeIdx
          = parseMarkersLoop rest nameIdx startTimeIdx)
    ∧ (∀ (row : List String) (rest : List (List String)) (nameIdx startTimeIdx : Nat),
        Nat.max nameIdx startTimeIdx < row.length →
        goTrim (row.getD nameIdx "") = "" →
        parseMarkersLoop (row :: rest) nameIdx startTimeIdx
          = parseMarkersLoop rest nameIdx startTimeIdx)
    ∧ (∀ (row : List String) (rest : List (List String)) (nameIdx startTimeIdx : Nat)
        (e : String),
        Nat.max nameIdx startTimeIdx < row.length →
        goTrim (row.getD nameIdx "") ≠ "" →
        parseTimeString (goTrim (row.getD startTimeIdx "")) = .error e →
        ∃ msg pre post, parseMarkersLoop (row :: rest) nameIdx startTimeIdx = .error msg
          ∧ msg = pre ++ goTrim (row.getD startTimeIdx "") ++ post) := by
  refine ⟨?_, ?_, ?_⟩
  · intro row rest n s h
    simp [parseMarkersLoop, h]
  · intro row rest n s h1 h2
    have hle : ¬(row.length ≤ Nat.max n s) := by omega
    simp only [parseMarkersLoop]
    rw [if_neg hle, if_pos h2]
  · intro row rest n s e h1 h2 h3
    have hle : ¬(row.length ≤ Nat.max n s) := by omega
    have hmain : parseMarkersLoop (row :: rest) n s
        = .error ("failed to parse start time '" ++ goTrim (row.getD s "") ++ "': " ++ e) := by
      simp only [parseMarkersLoop]
      rw [if_neg hle, if_neg h2, h3]
    exact ⟨_, "failed to parse start time '", "': " ++ e, hmain, by
      simp [String.append_assoc]⟩

/-- Witness for C7: a one-cell row is skipped, a blank-name row is skipped,
and a row with the unparseable start time "xx" aborts with an error message
containing "xx". -/
theorem markerRows_C7_witness :
    parseMarkersLoop [["x"]] 0 1 = parseMarkersLoop [] 0 1
    ∧ parseMarkersLoop [[" ", "1.0"]] 0 1 = parseMarkersLoop [] 0 1
    ∧ (∃ msg pre post, parseMarkersLoop [["A", "xx"]] 0 1 = .error msg
        ∧ msg = pre ++ goTrim (["A", "xx"].getD 1 "") ++ post) :=
  ⟨markerRows_C7.1 ["x"] [] 0 1 (by decide),
   markerRows_C7.2.1 [" ", "1.0"] [] 0 1 (by decide) (by decide),
   markerRows_C7.2.2 ["A", "xx"] [] 0 1 "unsupported time format: xx"
     (by decide) (by decide) (by decide)⟩

/-- C3: `extractCTOCInfo` returns an error exactly when the body has fewer
than three bytes, contains no zero byte, or ends at or before the entry-count
position `idEnd + 2`; a short child-id region or a missing "TIT2" sub-frame
is not an error. -/
theorem extractErrors_C3 (data : List Nat) :
    (∃ e, extractCTOCInfo data = .error e) ↔
      (data.length < 3 ∨ findZeroIdx data = none
        ∨ ∃ idEnd, findZeroIdx data = some idEnd ∧ data.length ≤ idEnd + 2) := by
  by_cases h1 : data.length < 3
  · simp [extractCTOCInfo, h1]
  · cases hz : findZeroIdx data with
    | none => simp [extractCTOCInfo, h1, hz]
    | some idEnd =>
      by_cases h2 : data.length ≤ idEnd + 2
      · simp [extractCTOCInfo, h1, hz, h2]
      · simp [extractCTOCInfo, h1, hz, h2]

theorem countFrames_addFrame (t : Tag) (id id' : String) (f : Frame) :
    countFrames (addFrame t id f) id' = countFrames t id' + (if id = id' then 1 else 0) := by
  by_cases h : id = id' <;>
    simp [addFrame, countFrames, List.filter_append, h]

theorem countFrames_deleteFrames_self (t : Tag) (id : String) :
    countFrames (deleteFrames t id) id = 0 := by
  induction t with
  | nil => rfl
  | cons p rest ih =>
    by_cases h : p.1 = id
    · simpa [deleteFrames, countFrames, List.filter_cons, h] using ih
    · simpa [deleteFrames, countFrames, List.filter_cons, h] using ih

theorem countFrames_deleteFrames_ne (t : Tag) (id id' : String) (h : id ≠ id') :
    countFrames (deleteFrames t id) id' = countFrames t id' := by
  unfold countFrames deleteFrames
  rw [List.filter_filter]
  congr 1
  apply List.filter_congr
  intro p _
  by_cases hp : p.1 = id'
  · simp [hp, Ne.symm h]
  · simp [hp]

theorem chapterLoop_spec (markers : List MarkerEntry) :
    ∀ (t : Tag) (i : Nat),
      countFrames (chapterLoop t i markers).1 "CHAP"
          = countFrames t "CHAP" + validCount markers
      ∧ countFrames (chapterLoop t i markers).1 "CTOC" = countFrames t "CTOC"
      ∧ (chapterLoop t i markers).2.length = validCount markers := by
  induction markers with
  | nil => intro t i; simp [chapterLoop, validCount]
  | cons m rest ih =>
    intro t i
    by_cases h : goTrim m.Name = ""
    · have hv : validCount (m :: rest) = validCount rest := by
        simp [validCount, List.filter_cons, h]
      rw [show chapterLoop t i (m :: rest) = chapterLoop t (i + 1) rest from by
        simp [chapterLoop, h]]
      simpa [hv] using ih t (i + 1)
    · have hv : validCount (m :: rest) = validCount rest + 1 := by
        simp [validCount, List.filter_cons, h]
      have hstep : chapterLoop t i (m :: rest)
          = ((chapterLoop (addFrame t "CHAP"
                (createChapterFrame ("chp" ++ toString i) m.Name m.StartTime)) (i + 1) rest).1,
             ("chp" ++ toString i) :: (chapterLoop (addFrame t "CHAP"
                (createChapterFrame ("chp" ++ toString i) m.Name m.StartTime)) (i + 1) rest).2) := by
        simp [chapterLoop, h]
      obtain ⟨ih1, ih2, ih3⟩ := ih (addFrame t "CHAP"
        (createChapterFrame ("chp" ++ toString i) m.Name m.StartTime)) (i + 1)
      rw [hstep]
      dsimp only
      refine ⟨?_, ?_, ?_⟩
      · rw [ih1, countFrames_addFrame, hv]
        simp
        omega
      · rw [ih2, countFrames_addFrame]
        simp
      · rw [List.length_cons, ih3, hv]

/-- C6: `addChapterFrames` deletes all existing CHAP and CTOC frames before
adding new ones, so for every prior tag state and marker list the resulting
tag holds exactly `validCount markers` chapter frames and exactly one TOC
frame when some marker has a non-blank name (zero of each when none does);
running the operation twice leaves the same counts — no duplication. -/
theorem frameCounts_C6 (tag : Tag) (markers : List MarkerEntry) :
    countFrames (addChapterFrames tag markers) "CHAP" = validCount markers
    ∧ countFrames (addChapterFrames tag markers) "CTOC"
        = (if validCount markers = 0 then 0 else 1)
    ∧ countFrames (addChapterFrames (addChapterFrames tag markers) markers) "CHAP"
        = validCount markers
    ∧ countFrames (addChapterFrames (addChapterFrames tag markers) markers) "CTOC"
        = (if validCount markers = 0 then 0 else 1) := by
  have base : ∀ tg : Tag,
      countFrames (addChapterFrames tg markers) "CHAP" = validCount markers
      ∧ countFrames (addChapterFrames tg markers) "CTOC"
          = (if validCount markers = 0 then 0 else 1) := by
    intro tg
    set t0 := deleteFrames (deleteFrames tg "CHAP") "CTOC" with ht0
    have hCHAP0 : countFrames t0 "CHAP" = 0 := by
      rw [ht0, countFrames_deleteFrames_ne _ _ _ (by decide)]
      exact countFrames_deleteFrames_self tg "CHAP"
    have hCTOC0 : countFrames t0 "CTOC" = 0 := by
      rw [ht0]
      exact countFrames_deleteFrames_self _ "CTOC"
    by_cases hm : markers.length = 0
    · have hnil : markers = [] := List.length_eq_zero.mp hm
      subst hnil
      have heq : addChapterFrames tg [] = t0 := by
        simp [addChapterFrames, ← ht0]
      rw [heq]
      simp [validCount, hCHAP0, hCTOC0]
    · obtain ⟨h1, h2, h3⟩ := chapterLoop_spec markers t0 0
      by_cases hz : (chapterLoop t0 0 markers).2.length = 0
      · have hv0 : validCount markers = 0 := by omega
        have heq : addChapterFrames tg markers = (chapterLoop t0 0 markers).1 := by
          simp only [addChapterFrames, ← ht0]
          rw [if_neg hm, if_pos hz]
        rw [heq]
        constructor
        · rw [h1, hCHAP0, hv0]
        · rw [h2, hCTOC0, hv0]
          simp
      · have hv1 : validCount markers ≠ 0 := by omega
        have heq : addChapterFrames tg markers
            = addFrame (chapterLoop t0 0 markers).1 "CTOC"
                (createCTOCFrame "toc" true true (chapterLoop t0 0 markers).2
                  "Table of Contents") := by
          simp only [addChapterFrames, ← ht0]
          rw [if_neg hm, if_neg hz]
        rw [heq]
        constructor
        · rw [countFrames_addFrame, h1, hCHAP0]
          simp
        · rw [countFrames_addFrame, h2, hCTOC0]
          simp [hv1]
  exact ⟨(base tag).1, (base tag).2,
    (base (addChapterFrames tag markers)).1, (base (addChapterFrames tag markers)).2⟩

theorem tdivCoe (m n : Nat) : ((m : Int)).tdiv (n : Int) = ((m / n : Nat) : Int) := rfl

theorem tmodCoe (m n : Nat) : ((m : Int)).tmod (n : Int) = ((m % n : Nat) : Int) := rfl

theorem minutesComponent (n : Nat) :
    n / 60000000000 % 60 = n % 3600000000000 / 60000000000 := by
  have h : (3600000000000 : Nat) = 60000000000 * 60 := by norm_num
  rw [h, Nat.mod_mul_right_div_self]

theorem secondsComponent (n : Nat) :
    n / 1000000000 % 60 = n % 3600000000000 % 60000000000 / 1000000000 := by
  rw [Nat.mod_mod_of_dvd n (by norm_num : (60000000000 : Nat) ∣ 3600000000000)]
  have h : (60000000000 : Nat) = 1000000000 * 60 := by norm_num
  rw [h, Nat.mod_mul_right_div_self]

theorem millisComponent (n : Nat) :
    n / 1000000 % 1000 = n % 1000000000 / 1000000 := by
  have h : (1000000000 : Nat) = 1000000 * 1000 := by norm_num
  rw [h, Nat.mod_mul_right_div_self]


theorem firstTIT2From_none_of_ge (data : List Nat) (start : Nat)
    (h : data.length - 4 ≤ start) : firstTIT2From data start = none := by
  apply List.find?_eq_none.mpr
  intro i hi
  rw [List.mem_range] at hi
  simp only [Bool.and_eq_true, decide_eq_true_eq, not_and]
  intro hle
  exfalso
  omega

theorem find?_range'_min (p : Nat → Bool) :
    ∀ (n s i : Nat), s ≤ i → i < s + n → p i = true →
      (∀ j, s ≤ j → j < i → p j = false) →
      (List.range' s n).find? p = some i := by
  intro n
  induction n with
  | zero => intro s i h1 h2 _ _; omega
  | succ k ih =>
    intro s i h1 h2 hp hmin
    rw [List.range'_succ]
    rcases Nat.eq_or_lt_of_le h1 with h | h
    · subst h
      exact List.find?_cons_of_pos _ hp
    · have hps : p s = false := hmin s (Nat.le_refl s) h
      rw [List.find?_cons_of_neg _ (by simp [hps])]
      exact ih (s + 1) i h (by omega) hp (fun j hj1 hj2 => hmin j (by omega) hj2)

theorem titleLoopAux_eq_spec (data : List Nat) :
    ∀ (fuel i : Nat), i + fuel = data.length - 4 →
      titleLoopAux data i fuel = specTitleScan data i := by
  intro fuel
  induction fuel with
  | zero =>
    intro i h
    have hn := firstTIT2From_none_of_ge data i (by omega)
    simp [titleLoopAux, specTitleScan, hn]
  | succ k ih =>
    intro i h
    by_cases hm : (data.drop i).take 4 = [84, 73, 84, 50]
    · have hfst : firstTIT2From data i = some i := by
        unfold firstTIT2From
        rw [List.range_eq_range']
        apply find?_range'_min
        · exact Nat.zero_le i
        · omega
        · simp [hm]
        · intro j hj0 hji
          have hij : ¬(i ≤ j) := by omega
          simp [hij]
      have hL : titleLoopAux data i (k + 1)
          = (if data.length ≤ i + 10 then []
             else if data.getD (i + 10) 0 = 0 ∨ data.getD (i + 10) 0 = 3 then
               (data.drop (i + 11)).takeWhile (fun b => b != 0)
             else ((data.drop (i + 11)).take 50).takeWhile (fun b => b != 0)) := by
        simp [titleLoopAux, hm]
      have hR : specTitleScan data i
          = (if data.length ≤ i + 10 then []
             else if data.getD (i + 10) 0 = 0 ∨ data.getD (i + 10) 0 = 3 then
               (data.drop (i + 11)).takeWhile (fun b => b != 0)
             else ((data.drop (i + 11)).take 50).takeWhile (fun b => b != 0)) := by
        simp [specTitleScan, hfst]
      rw [hL, hR]
    · have hmb : ((data.drop i).take 4 == [84, 73, 84, 50]) = false := by
        simp [hm]
      have hstep : titleLoopAux data i (k + 1) = titleLoopAux data (i + 1) k := by
        simp [titleLoopAux, hm]
      have hpred : (fun j => decide (i ≤ j) && ((data.drop j).take 4 == [84, 73, 84, 50]))
          = (fun j => decide (i + 1 ≤ j) && ((data.drop j).take 4 == [84, 73, 84, 50])) := by
        funext j
        by_cases hj : j = i
        · subst hj
          simp [hmb]
        · by_cases h1 : i ≤ j
          · have h2 : i + 1 ≤ j := by omega
            simp [h1, h2]
          · have h2 : ¬(i + 1 ≤ j) := by omega
            simp [h1, h2]
      have hfst : firstTIT2From data i = firstTIT2From data (i + 1) := by
        unfold firstTIT2From
        rw [hpred]
      have hspec : specTitleScan data i = specTitleScan data (i + 1) := by
        unfold specTitleScan
        rw [hfst]
      rw [hstep, ih (i + 1) (by omega), hspec]

theorem extractTitle_eq_specScan (data : List Nat) (start : Nat) :
    extractTitleFromCTOC data start = specTitleScan data start := by
  by_cases h : start ≤ data.length - 4
  · exact titleLoopAux_eq_spec data (data.length - 4 - start) start (by omega)
  · have hf : data.length - 4 - start = 0 := by omega
    have hn := firstTIT2From_none_of_ge data start (by omega)
    rw [show extractTitleFromCTOC data start
        = titleLoopAux data start (data.length - 4 - start) from rfl, hf]
    simp [titleLoopAux, specTitleScan, hn]

/-- C4 fails on the code: on `data4`, whose single child id contains the
bytes "TIT2", the source reader extracts the title "Hi" from inside the
child-id region, whereas a reader whose scan begins at the first byte after
the last consumed child id (the claim's description, `extractCTOCInfoClaimed`)
extracts an empty title. -/
theorem titleScanStart_C4_counterexample :
    extractCTOCInfo data4 = .ok info4
    ∧ extractCTOCInfoClaimed data4 = .ok { info4 with Title := [] }
    ∧ info4.Title ≠ [] := by
  refine ⟨by decide, by decide, by decide⟩

/-- C4 amended: the title scan of the CTOC reader starts at
`countPos + 1 + 2 * (number of extracted child ids)` — the code advances past
the child-id region only under the assumption that every child id occupies
two bytes — and from there proceeds exactly as the claim says: the first
occurrence of the literal bytes "TIT2" is located, 10 sub-header bytes are
skipped, one encoding-marker byte is read, and the title is read up to a null
terminator for encodings 0 and 3, or up to 50 bytes or a null for any other
encoding (`specTitleScan`). -/
theorem titleScanStart_C4_amended :
    (∀ (data : List Nat) (start : Nat),
        extractTitleFromCTOC data start = specTitleScan data start)
    ∧ (∀ (data : List Nat) (info : CTOCInfo), extractCTOCInfo data = .ok info →
        ∃ idEnd, findZeroIdx data = some idEnd ∧
          info.Title = specTitleScan data (idEnd + 3 + info.ChildIDs.length * 2)) := by
  refine ⟨extractTitle_eq_specScan, ?_⟩
  intro data info h
  simp only [extractCTOCInfo] at h
  split at h
  · exact absurd h (by simp)
  · split at h
    · exact absurd h (by simp)
    · next idEnd heq =>
      split at h
      · exact absurd h (by simp)
      · rw [Except.ok.injEq] at h
        subst h
        exact ⟨idEnd, heq, extractTitle_eq_specScan data _⟩

/-- Witness for C4's amended claim at the concrete body `data4`. -/
theorem titleScanStart_C4_witness :
    ∃ idEnd, findZeroIdx data4 = some idEnd ∧
      info4.Title = specTitleScan data4 (idEnd + 3 + info4.ChildIDs.length * 2) :=
  titleScanStart_C4_amended.2 data4 info4 (by decide)
theorem log2Fuel_spec : ∀ fuel n : Nat, 1 ≤ n → n ≤ fuel →
    2 ^ log2Fuel fuel n ≤ n ∧ n < 2 ^ (log2Fuel fuel n + 1) := by
  intro fuel
  induction fuel with
  | zero => intro n h1 h2; omega
  | succ f ih =>
    intro n h1 h2
    by_cases h : 2 ≤ n
    · have hrec := ih (n / 2) (by omega) (by omega)
      simp only [log2Fuel]
      rw [if_pos h]
      have hp1 : 2 ^ (log2Fuel f (n / 2) + 1) = 2 * 2 ^ log2Fuel f (n / 2) := by
        rw [pow_succ]; ring
      have hp2 : 2 ^ (log2Fuel f (n / 2) + 1 + 1) = 4 * 2 ^ log2Fuel f (n / 2) := by
        rw [pow_succ, pow_succ]; ring
      omega
    · have hn : n = 1 := by omega
      subst hn
      norm_num [log2Fuel]

theorem myLog2_le (n : Nat) (h : 1 ≤ n) : 2 ^ myLog2 n ≤ n :=
  (log2Fuel_spec n n h le_rfl).1

theorem lt_myLog2_succ (n : Nat) (h : 1 ≤ n) : n < 2 ^ (myLog2 n + 1) :=
  (log2Fuel_spec n n h le_rfl).2

theorem floorLog2F_le (a d : Nat) (ha : 1 ≤ a) (hd : 1 ≤ d) :
    (2 : ℚ) ^ floorLog2F a d * (d : ℚ) ≤ (a : ℚ) := by
  have hdq : (0 : ℚ) < d := by exact_mod_cast hd
  unfold floorLog2F
  by_cases hda : d ≤ a
  · rw [if_pos hda, zpow_natCast]
    have hnat : 2 ^ myLog2 (a / d) * d ≤ a :=
      (Nat.le_div_iff_mul_le (by omega)).mp
        (myLog2_le (a / d) ((Nat.one_le_div_iff (by omega)).mpr hda))
    exact_mod_cast hnat
  · rw [if_neg hda]
    have h1a : 1 ≤ d / a := (Nat.one_le_div_iff (by omega)).mpr (by omega)
    by_cases hb : d ≤ a * 2 ^ myLog2 (d / a)
    · rw [if_pos hb, zpow_neg, zpow_natCast, inv_mul_le_iff₀ (by positivity)]
      have hq : (d : ℚ) ≤ (a : ℚ) * 2 ^ myLog2 (d / a) := by exact_mod_cast hb
      linarith
    · rw [if_neg hb]
      have hd2 : d < 2 ^ (myLog2 (d / a) + 1) * a :=
        (Nat.div_lt_iff_lt_mul (by omega)).mp (lt_myLog2_succ (d / a) h1a)
      have hzp : (2 : ℚ) ^ (-(myLog2 (d / a) : ℤ) - 1)
          = ((2 : ℚ) ^ (myLog2 (d / a) + 1))⁻¹ := by
        rw [show -(myLog2 (d / a) : ℤ) - 1 = -((myLog2 (d / a) + 1 : ℕ) : ℤ) by push_cast; ring,
          zpow_neg, zpow_natCast]
      rw [hzp, inv_mul_le_iff₀ (by positivity)]
      have hq : (d : ℚ) < 2 ^ (myLog2 (d / a) + 1) * a := by exact_mod_cast hd2
      linarith

theorem lt_floorLog2F_succ (a d : Nat) (ha : 1 ≤ a) (hd : 1 ≤ d) :
    (a : ℚ) < (2 : ℚ) ^ (floorLog2F a d + 1) * (d : ℚ) := by
  have hdq : (0 : ℚ) < d := by exact_mod_cast hd
  have haq : (0 : ℚ) < a := by exact_mod_cast ha
  unfold floorLog2F
  by_cases hda : d ≤ a
  · rw [if_pos hda]
    have h1 : 1 ≤ a / d := (Nat.one_le_div_iff (by omega)).mpr hda
    have hnat : a < 2 ^ (myLog2 (a / d) + 1) * d :=
      (Nat.div_lt_iff_lt_mul (by omega)).mp (lt_myLog2_succ (a / d) h1)
    rw [show (myLog2 (a / d) : ℤ) + 1 = ((myLog2 (a / d) + 1 : ℕ) : ℤ) by push_cast; ring,
      zpow_natCast]
    exact_mod_cast hnat
  · rw [if_neg hda]
    have h1a : 1 ≤ d / a := (Nat.one_le_div_iff (by omega)).mpr (by omega)
    by_cases hb : d ≤ a * 2 ^ myLog2 (d / a)
    · rw [if_pos hb]
      have hge : 2 ^ myLog2 (d / a) * a ≤ d :=
        (Nat.le_div_iff_mul_le (by omega)).mp (myLog2_le (d / a) h1a)
      have heq : (d : ℚ) = (a : ℚ) * 2 ^ myLog2 (d / a) := by
        have hle : (d : ℚ) ≤ (a : ℚ) * 2 ^ myLog2 (d / a) := by exact_mod_cast hb
        have hge' : (2 : ℚ) ^ myLog2 (d / a) * a ≤ d := by exact_mod_cast hge
        linarith
      have hzp : (2 : ℚ) ^ (-(myLog2 (d / a) : ℤ) + 1)
          = 2 / (2 : ℚ) ^ myLog2 (d / a) := by
        rw [show -(myLog2 (d / a) : ℤ) + 1 = (1 : ℤ) - (myLog2 (d / a) : ℕ) by ring,
          zpow_sub₀ (by norm_num), zpow_one, zpow_natCast]
      rw [hzp, heq]
      have h2j : (0 : ℚ) < (2 : ℚ) ^ myLog2 (d / a) := by positivity
      rw [show (2 : ℚ) / 2 ^ myLog2 (d / a) * ((a : ℚ) * 2 ^ myLog2 (d / a)) = 2 * a by
        field_simp; ring]
      linarith
    · rw [if_neg hb]
      rw [show -(myLog2 (d / a) : ℤ) - 1 + 1 = -((myLog2 (d / a) : ℕ) : ℤ) by ring,
        zpow_neg, zpow_natCast, lt_inv_mul_iff₀ (by positivity)]
      have hq : (a : ℚ) * 2 ^ myLog2 (d / a) < d := by exact_mod_cast lt_of_not_le hb
      linarith

theorem floorLog2F_lt (a d : Nat) (ha : 1 ≤ a) (hd : 1 ≤ d) (E : Nat)
    (hv : (a : ℚ) < 2 ^ E * (d : ℚ)) : floorLog2F a d < (E : Int) := by
  have hdq : (0 : ℚ) < d := by exact_mod_cast hd
  have h1 := floorLog2F_le a d ha hd
  have h2 : (2 : ℚ) ^ floorLog2F a d * d < 2 ^ (E : ℤ) * d := by
    rw [zpow_natCast]; linarith
  have h3 : (2 : ℚ) ^ floorLog2F a d < 2 ^ (E : ℤ) := (mul_lt_mul_right hdq).mp h2
  exact (zpow_lt_zpow_iff_right₀ (by norm_num : (1 : ℚ) < 2)).mp h3

theorem rhe_ge_div (a b : Nat) : a / b ≤ rhe a b := by
  simp only [rhe]
  split_ifs <;> omega

theorem rhe_one (a : Nat) : rhe a 1 = a := by
  simp only [rhe, Nat.mod_one, Nat.div_one]
  norm_num

theorem rhe_mul_le (a b : Nat) (hb : 0 < b) : 2 * (rhe a b * b) ≤ 2 * a + b := by
  have h := Nat.div_add_mod a b
  have hm := Nat.mod_lt a hb
  simp only [rhe]
  split_ifs with h1 h2 h3 <;> nlinarith [h, hm, Nat.div_mul_le_self a b]

theorem le_rhe_mul (a b : Nat) (hb : 0 < b) : 2 * a ≤ 2 * (rhe a b * b) + b := by
  have h := Nat.div_add_mod a b
  have hm := Nat.mod_lt a hb
  simp only [rhe]
  split_ifs with h1 h2 h3 <;> nlinarith [h, hm]

theorem roundFloat_repr (a d : Nat) (ha : 1 ≤ a) (he : floorLog2F a d < 52) :
    roundFloat ((a : Int), d)
      = ((rhe (a * 2 ^ (52 - floorLog2F a d).toNat) d : Int),
          2 ^ (52 - floorLog2F a d).toNat) := by
  have h0 : ((a : Nat) : Int) ≠ 0 := by
    simp only [ne_eq, Nat.cast_eq_zero]; omega
  have habs : ((a : Nat) : Int).natAbs = a := Int.natAbs_ofNat a
  have hsign : ((a : Nat) : Int).sign = 1 := Int.sign_natCast_of_ne_zero (by omega)
  simp only [roundFloat]
  rw [if_neg h0, habs, hsign, if_neg (not_le.mpr he), one_mul]

theorem val_bounds_of_nat (m k a d : Nat) (hd : 0 < d)
    (hu : 2 * (m * d) ≤ 2 * (a * 2 ^ k) + d) (hl : 2 * (a * 2 ^ k) ≤ 2 * (m * d) + d) :
    (m : ℚ) / 2 ^ k ≤ (a : ℚ) / d + 1 / 2 ^ (k + 1)
      ∧ (a : ℚ) / d ≤ (m : ℚ) / 2 ^ k + 1 / 2 ^ (k + 1) := by
  have hdq : (0 : ℚ) < d := by exact_mod_cast hd
  have h2k : (0 : ℚ) < (2 : ℚ) ^ k := by positivity
  have hu' : 2 * ((m : ℚ) * d) ≤ 2 * ((a : ℚ) * 2 ^ k) + d := by exact_mod_cast hu
  have hl' : 2 * ((a : ℚ) * 2 ^ k) ≤ 2 * ((m : ℚ) * d) + d := by exact_mod_cast hl
  have hps : (2 : ℚ) ^ (k + 1) = 2 * 2 ^ k := by rw [pow_succ]; ring
  constructor
  · rw [div_add_div _ _ (ne_of_gt hdq) (by positivity), div_le_div_iff₀ h2k (by positivity), hps]
    nlinarith [mul_le_mul_of_nonneg_right hu' (le_of_lt h2k)]
  · rw [div_add_div _ _ (ne_of_gt h2k) (by positivity), div_le_div_iff₀ hdq (by positivity), hps]
    nlinarith [mul_le_mul_of_nonneg_right hl' (le_of_lt h2k)]

theorem roundFloat_bounds (a d : Nat) (ha : 1 ≤ a) (hd : 1 ≤ d)
    (he : floorLog2F a d < 52) :
    ∃ m k : Nat,
      roundFloat ((a : Int), d) = ((m : Int), 2 ^ k)
        ∧ k = (52 - floorLog2F a d).toNat
        ∧ ((m : ℚ) / 2 ^ k ≤ (a : ℚ) / d + 1 / 2 ^ (k + 1)
            ∧ (a : ℚ) / d ≤ (m : ℚ) / 2 ^ k + 1 / 2 ^ (k + 1))
        ∧ ∀ H : Nat, H * d ≤ a → H * 2 ^ k ≤ m := by
  refine ⟨rhe (a * 2 ^ (52 - floorLog2F a d).toNat) d, (52 - floorLog2F a d).toNat,
    roundFloat_repr a d ha he, rfl,
    val_bounds_of_nat _ _ a d (by omega) (rhe_mul_le _ _ (by omega)) (le_rhe_mul _ _ (by omega)),
    ?_⟩
  intro H hH
  have h1 : H * 2 ^ (52 - floorLog2F a d).toNat * d ≤ a * 2 ^ (52 - floorLog2F a d).toNat := by
    calc H * 2 ^ (52 - floorLog2F a d).toNat * d
        = H * d * 2 ^ (52 - floorLog2F a d).toNat := by ring
      _ ≤ a * 2 ^ (52 - floorLog2F a d).toNat := Nat.mul_le_mul_right _ hH
  exact le_trans ((Nat.le_div_iff_mul_le (by omega)).mpr h1) (rhe_ge_div _ _)

theorem floatOfInt_repr (n : Nat) (hn : (n : ℚ) < 2 ^ (52 : ℕ)) :
    ∃ k : Nat, floatOfInt (n : Int) = (((n * 2 ^ k : Nat) : Int), 2 ^ k) := by
  rcases Nat.eq_zero_or_pos n with h0 | hpos
  · subst h0
    exact ⟨0, by simp [floatOfInt, roundFloat]⟩
  · have he : floorLog2F n 1 < 52 := by
      have h := floorLog2F_lt n 1 hpos le_rfl 52 (by simpa using hn)
      omega
    refine ⟨(52 - floorLog2F n 1).toNat, ?_⟩
    rw [floatOfInt, roundFloat_repr n 1 hpos he, rhe_one]

theorem fdiv_float_bounds (r D : Nat) (hD : 1 ≤ D) (hrD : r < D) (hD52 : (D : ℚ) ≤ 2 ^ (52 : ℕ)) :
    ∃ m k : Nat,
      fdiv (floatOfInt (r : Int)) ((D : Int), 1) = ((m : Int), 2 ^ k)
        ∧ (m : ℚ) / 2 ^ k ≤ (r : ℚ) / D + 1 / 2 ^ (54 : ℕ)
        ∧ (r : ℚ) / D ≤ (m : ℚ) / 2 ^ k + 1 / 2 ^ (54 : ℕ) := by
  have hDq : (0 : ℚ) < D := by exact_mod_cast hD
  rcases Nat.eq_zero_or_pos r with hr0 | hrpos
  · subst hr0
    refine ⟨0, 0, ?_, ?_, ?_⟩
    · show fdiv (floatOfInt ((0 : ℕ) : ℤ)) ((D : ℤ), 1) = (((0 : ℕ) : ℤ), 2 ^ 0)
      simp [floatOfInt, fdiv, roundFloat]
    · simp
    · simp
  · have hr52 : (r : ℚ) < 2 ^ (52 : ℕ) := lt_of_lt_of_le (by exact_mod_cast hrD) hD52
    obtain ⟨k₀, hk₀⟩ := floatOfInt_repr r hr52
    have hfd : fdiv (floatOfInt (r : Int)) ((D : Int), 1)
        = roundFloat (((r * 2 ^ k₀ : Nat) : Int), 2 ^ k₀ * D) := by
      rw [hk₀]
      simp [fdiv, Int.toNat_natCast]
    have ha' : 1 ≤ r * 2 ^ k₀ := Nat.mul_pos hrpos (Nat.two_pow_pos k₀)
    have hd' : 1 ≤ 2 ^ k₀ * D := Nat.mul_pos (Nat.two_pow_pos k₀) (by omega)
    have hvallt : ((r * 2 ^ k₀ : Nat) : ℚ) < 2 ^ (0 : ℕ) * ((2 ^ k₀ * D : Nat) : ℚ) := by
      push_cast
      rw [pow_zero, one_mul]
      have h2q : (0 : ℚ) < (2 : ℚ) ^ k₀ := by positivity
      have hrq : (r : ℚ) < D := by exact_mod_cast hrD
      nlinarith
    have heNeg := floorLog2F_lt (r * 2 ^ k₀) (2 ^ k₀ * D) ha' hd' 0 hvallt
    have he' : floorLog2F (r * 2 ^ k₀) (2 ^ k₀ * D) < 52 := by omega
    obtain ⟨m, k, hrep, hk, hbounds, _⟩ := roundFloat_bounds (r * 2 ^ k₀) (2 ^ k₀ * D) ha' hd' he'
    have hk53 : 53 ≤ k := by omega
    have hvq : ((r * 2 ^ k₀ : Nat) : ℚ) / ((2 ^ k₀ * D : Nat) : ℚ) = (r : ℚ) / D := by
      push_cast
      rw [div_eq_div_iff (by positivity) (by positivity)]
      ring
    have herr : (1 : ℚ) / 2 ^ (k + 1) ≤ 1 / 2 ^ (54 : ℕ) :=
      one_div_le_one_div_of_le (by positivity) (pow_le_pow_right₀ (by norm_num) (by omega))
    refine ⟨m, k, by rw [hfd, hrep], ?_, ?_⟩
    · have h1 := hbounds.1
      rw [hvq] at h1
      linarith
    · have h1 := hbounds.2
      rw [hvq] at h1
      linarith

theorem truncFloatSum (D E h r : Nat) (hD : 1 ≤ D) (hD52 : (D : ℚ) ≤ 2 ^ (52 : ℕ))
    (hE1 : 1 ≤ E) (hE52 : E ≤ 52)
    (hnum : D * (2 ^ E + 1) < 2 ^ 54)
    (hh : h + 1 ≤ 2 ^ E) (hr : r < D) :
    truncFrac (fadd (floatOfInt (h : Int)) (fdiv (floatOfInt (r : Int)) ((D : Int), 1)))
      = (h : Int) := by
  obtain ⟨m₁, k₁, hq, hqu, hql⟩ := fdiv_float_bounds r D hD hr hD52
  have hh52 : (h : ℚ) < 2 ^ (52 : ℕ) := by
    have h1 : (h : ℚ) < (2 : ℚ) ^ E := by exact_mod_cast (by omega : h < 2 ^ E)
    calc (h : ℚ) < (2 : ℚ) ^ E := h1
      _ ≤ 2 ^ (52 : ℕ) := pow_le_pow_right₀ (by norm_num) hE52
  obtain ⟨k₀, hk₀⟩ := floatOfInt_repr h hh52
  rw [hk₀, hq, fadd]
  have haddEq : fracAdd (((h * 2 ^ k₀ : Nat) : Int), 2 ^ k₀) ((m₁ : Int), 2 ^ k₁)
      = (((h * 2 ^ k₀ * 2 ^ k₁ + m₁ * 2 ^ k₀ : Nat) : Int), 2 ^ k₀ * 2 ^ k₁) := by
    simp only [fracAdd, Prod.mk.injEq]
    constructor
    · push_cast; ring
    · trivial
  rw [haddEq]
  have hDq : (0 : ℚ) < D := by exact_mod_cast hD
  by_cases hA0 : h * 2 ^ k₀ * 2 ^ k₁ + m₁ * 2 ^ k₀ = 0
  · have hk₀pos : 0 < 2 ^ k₀ := Nat.two_pow_pos k₀
    have hk₁pos : 0 < 2 ^ k₁ := Nat.two_pow_pos k₁
    have hh0 : h = 0 := by
      by_contra hne
      have hp : 0 < h * 2 ^ k₀ * 2 ^ k₁ :=
        Nat.mul_pos (Nat.mul_pos (Nat.pos_of_ne_zero hne) hk₀pos) hk₁pos
      omega
    have hz : (((h * 2 ^ k₀ * 2 ^ k₁ + m₁ * 2 ^ k₀ : Nat)) : Int) = 0 := by
      rw [hA0]; rfl
    rw [hz, hh0]
    simp [roundFloat, truncFrac]
  · have hApos : 1 ≤ h * 2 ^ k₀ * 2 ^ k₁ + m₁ * 2 ^ k₀ := by omega
    have hBpos : 1 ≤ 2 ^ k₀ * 2 ^ k₁ := Nat.mul_pos (Nat.two_pow_pos k₀) (Nat.two_pow_pos k₁)
    have hBq : (0 : ℚ) < ((2 ^ k₀ * 2 ^ k₁ : Nat) : ℚ) := by exact_mod_cast hBpos
    have hval : ((h * 2 ^ k₀ * 2 ^ k₁ + m₁ * 2 ^ k₀ : Nat) : ℚ) / ((2 ^ k₀ * 2 ^ k₁ : Nat) : ℚ)
        = (h : ℚ) + (m₁ : ℚ) / 2 ^ k₁ := by
      push_cast
      field_simp
      ring
    have hrle : (r : ℚ) ≤ (D : ℚ) - 1 := by
      have h2 : ((r : ℚ) + 1) ≤ D := by exact_mod_cast hr
      linarith
    have hkey : (r : ℚ) / D + 1 / 2 ^ (54 : ℕ) + (2 : ℚ) ^ E / 2 ^ (54 : ℕ) < 1 := by
      have hnq : ((D : ℚ)) * (2 ^ E + 1) < 2 ^ (54 : ℕ) := by exact_mod_cast hnum
      have hrD' : (r : ℚ) / D ≤ 1 - 1 / D := by
        have hsplit : (1 : ℚ) - 1 / D = ((D : ℚ) - 1) / D := by field_simp
        rw [hsplit]
        gcongr
      have hfinal : (1 : ℚ) / 2 ^ (54 : ℕ) + 2 ^ E / 2 ^ (54 : ℕ) < 1 / D := by
        have hcomb : (1 : ℚ) / 2 ^ (54 : ℕ) + 2 ^ E / 2 ^ (54 : ℕ)
            = (1 + 2 ^ E) / 2 ^ (54 : ℕ) := by ring
        rw [hcomb, lt_div_iff₀ hDq, div_mul_eq_mul_div, div_lt_one (by positivity)]
        nlinarith [hnq]
      linarith
    have hfrac_lt1 : (m₁ : ℚ) / 2 ^ k₁ < 1 := by
      have h2E : (0 : ℚ) ≤ (2 : ℚ) ^ E / 2 ^ (54 : ℕ) := by positivity
      linarith [hqu, hkey]
    have hu_lt : ((h * 2 ^ k₀ * 2 ^ k₁ + m₁ * 2 ^ k₀ : Nat) : ℚ)
        < 2 ^ E * ((2 ^ k₀ * 2 ^ k₁ : Nat) : ℚ) := by
      have h1 : ((h * 2 ^ k₀ * 2 ^ k₁ + m₁ * 2 ^ k₀ : Nat) : ℚ) / ((2 ^ k₀ * 2 ^ k₁ : Nat) : ℚ)
          < 2 ^ E := by
        rw [hval]
        have h2 : (h : ℚ) + 1 ≤ (2 : ℚ) ^ E := by exact_mod_cast hh
        linarith
      calc ((h * 2 ^ k₀ * 2 ^ k₁ + m₁ * 2 ^ k₀ : Nat) : ℚ)
          = ((h * 2 ^ k₀ * 2 ^ k₁ + m₁ * 2 ^ k₀ : Nat) : ℚ)
              / ((2 ^ k₀ * 2 ^ k₁ : Nat) : ℚ) * ((2 ^ k₀ * 2 ^ k₁ : Nat) : ℚ) := by
            field_simp
        _ < 2 ^ E * ((2 ^ k₀ * 2 ^ k₁ : Nat) : ℚ) := mul_lt_mul_of_pos_right h1 hBq
    have heE := floorLog2F_lt (h * 2 ^ k₀ * 2 ^ k₁ + m₁ * 2 ^ k₀) (2 ^ k₀ * 2 ^ k₁)
      hApos hBpos E hu_lt
    have heE52 : floorLog2F (h * 2 ^ k₀ * 2 ^ k₁ + m₁ * 2 ^ k₀) (2 ^ k₀ * 2 ^ k₁) < 52 := by
      omega
    obtain ⟨m₂, k₂, hrep2, hk2, hb2, hint2⟩ :=
      roundFloat_bounds (h * 2 ^ k₀ * 2 ^ k₁ + m₁ * 2 ^ k₀) (2 ^ k₀ * 2 ^ k₁) hApos hBpos heE52
    rw [hrep2]
    have hHB : h * (2 ^ k₀ * 2 ^ k₁) ≤ h * 2 ^ k₀ * 2 ^ k₁ + m₁ * 2 ^ k₀ := by
      calc h * (2 ^ k₀ * 2 ^ k₁) = h * 2 ^ k₀ * 2 ^ k₁ := by ring
        _ ≤ h * 2 ^ k₀ * 2 ^ k₁ + m₁ * 2 ^ k₀ := Nat.le_add_right _ _
    have hlow : h * 2 ^ k₂ ≤ m₂ := hint2 h hHB
    have hup : m₂ < (h + 1) * 2 ^ k₂ := by
      have hv2 := hb2.1
      rw [hval] at hv2
      have herr2 : (1 : ℚ) / 2 ^ (k₂ + 1) ≤ (2 : ℚ) ^ E / 2 ^ (54 : ℕ) := by
        have hpe : (2 : ℚ) ^ E / 2 ^ (54 : ℕ) = 1 / 2 ^ (54 - E) := by
          rw [div_eq_div_iff (by positivity) (by positivity), one_mul, ← pow_add]
          congr 1
          omega
        rw [hpe]
        exact one_div_le_one_div_of_le (by positivity)
          (pow_le_pow_right₀ (by norm_num) (by omega))
      have hlt : (m₂ : ℚ) / 2 ^ k₂ < (h : ℚ) + 1 := by
        linarith [hqu, hkey]
      have h2k2 : (0 : ℚ) < (2 : ℚ) ^ k₂ := by positivity
      have hcross := (div_lt_iff₀ h2k2).mp hlt
      exact_mod_cast hcross
    have hdiv : m₂ / 2 ^ k₂ = h := Nat.div_eq_of_lt_le hlow hup
    calc truncFrac ((m₂ : Int), 2 ^ k₂) = ((m₂ / 2 ^ k₂ : Nat) : Int) := rfl
      _ = (h : Int) := by exact_mod_cast hdiv

theorem formatDuration_eq_spec (n : Nat) (hlt : n < 14745600000000000) :
    FormatDuration ((n : Nat) : Int) = specFormatDuration ((n : Nat) : Int) := by
  have hHours : truncFrac (durationHours (n : Int)) = ((n / 3600000000000 : Nat) : Int) :=
    truncFloatSum 3600000000000 12 (n / 3600000000000) (n % 3600000000000)
      (by norm_num) (by norm_num) (by norm_num) (by norm_num) (by norm_num)
      (by have hp : (2 : ℕ) ^ 12 = 4096 := by norm_num
          omega)
      (Nat.mod_lt n (by norm_num))
  have hMins : truncFrac (durationMinutes (n : Int)) = ((n / 60000000000 : Nat) : Int) :=
    truncFloatSum 60000000000 18 (n / 60000000000) (n % 60000000000)
      (by norm_num) (by norm_num) (by norm_num) (by norm_num) (by norm_num)
      (by have hp : (2 : ℕ) ^ 18 = 262144 := by norm_num
          omega)
      (Nat.mod_lt n (by norm_num))
  have hSecs : truncFrac (durationSeconds (n : Int)) = ((n / 1000000000 : Nat) : Int) :=
    truncFloatSum 1000000000 24 (n / 1000000000) (n % 1000000000)
      (by norm_num) (by norm_num) (by norm_num) (by norm_num) (by norm_num)
      (by have hp : (2 : ℕ) ^ 24 = 16777216 := by norm_num
          omega)
      (Nat.mod_lt n (by norm_num))
  have hH2 : truncFrac (durationHours ((n : ℕ) : ℤ)) = ((n : ℕ) : ℤ).tdiv 3600000000000 := by
    rw [hHours]; rfl
  have hM2 : (truncFrac (durationMinutes ((n : ℕ) : ℤ))).tmod 60
      = (((n : ℕ) : ℤ).tmod 3600000000000).tdiv 60000000000 := by
    rw [hMins]
    exact congrArg (fun k : ℕ => (k : ℤ)) (minutesComponent n)
  have hS2 : (truncFrac (durationSeconds ((n : ℕ) : ℤ))).tmod 60
      = ((((n : ℕ) : ℤ).tmod 3600000000000).tmod 60000000000).tdiv 1000000000 := by
    rw [hSecs]
    exact congrArg (fun k : ℕ => (k : ℤ)) (secondsComponent n)
  have hMil : (((n : ℕ) : ℤ).tdiv 1000000).tmod 1000
      = (((n : ℕ) : ℤ).tmod 1000000000).tdiv 1000000 :=
    congrArg (fun k : ℕ => (k : ℤ)) (millisComponent n)
  simp only [FormatDuration, specFormatDuration]
  rw [hH2, hM2, hS2, hMil]

/-- C9 fails on the code at extreme durations: at the duration
14749199999999999 ns (one nanosecond short of 4097 hours) the source's
`int(d.Hours())` float64 conversion yields 4097 — the binary64 value of
d / 3.6e12 rounds up to exactly 4097 — while truncating integer division
yields 4096, so `FormatDuration` prints "4097:59:59.999" where the claim's
truncating-division formatter prints "4096:59:59.999". -/
theorem formatDuration_C9_counterexample :
    FormatDuration 14749199999999999 = "4097:59:59.999"
    ∧ specFormatDuration 14749199999999999 = "4096:59:59.999"
    ∧ FormatDuration 14749199999999999 ≠ specFormatDuration 14749199999999999 := by
  refine ⟨by decide, by decide, by decide⟩

/-- C9 amended: for every non-negative duration below 4096 hours
(14745600000000000 ns — far beyond anything an MP3 file can hold) the
binary64 computations of `FormatDuration` agree with computing integer
hours, minutes, seconds and milliseconds by truncating division, and the
two quoted examples format as claimed; beyond that bound the float64
conversions can round up and diverge from truncating division. -/
theorem formatDuration_C9_amended :
    (∀ d : Int, 0 ≤ d → d < 14745600000000000 →
        FormatDuration d = specFormatDuration d)
    ∧ FormatDuration (90500 * 1000000) = "1:30.500"
    ∧ FormatDuration (3690500 * 1000000) = "1:01:30.500" := by
  refine ⟨?_, by decide, by decide⟩
  intro d hd hlt
  obtain ⟨n, rfl⟩ := Int.eq_ofNat_of_zero_le hd
  exact formatDuration_eq_spec n (by exact_mod_cast hlt)

/-- Witness for C9's amended claim at the duration 90.5 s. -/
theorem formatDuration_C9_witness :
    (0 : Int) ≤ 90500000000 ∧ (90500000000 : Int) < 14745600000000000
    ∧ FormatDuration 90500000000 = specFormatDuration 90500000000 :=
  ⟨by decide, by decide, formatDuration_C9_amended.1 90500000000 (by decide) (by decide)⟩

theorem matchesAt_iff (pat : List Char) :
    ∀ cs, matchesAt pat cs = true ↔ ∃ q, cs = pat ++ q := by
  induction pat with
  | nil =>
    intro cs
    simp [matchesAt]
  | cons p ps ih =>
    intro cs
    cases cs with
    | nil => simp [matchesAt]
    | cons c cs' =>
      simp only [matchesAt, Bool.and_eq_true, beq_iff_eq, ih cs', List.cons_append,
        List.cons.injEq]
      constructor
      · rintro ⟨hpc, q, hq⟩
        exact ⟨q, hpc.symm, hq⟩
      · rintro ⟨q, hcp, hq⟩
        exact ⟨hcp.symm, q, hq⟩

theorem containsSeq_iff (pat : List Char) (cs : List Char) :
    containsSeq pat cs = true ↔ ∃ p q, cs = p ++ pat ++ q := by
  induction cs with
  | nil =>
    simp only [containsSeq]
    constructor
    · intro hp
      exact ⟨[], [], by simp [List.isEmpty_iff.mp hp]⟩
    · rintro ⟨p, q, hpq⟩
      rcases List.append_eq_nil.mp hpq.symm with ⟨h1, h2⟩
      rcases List.append_eq_nil.mp h1 with ⟨h3, h4⟩
      simp [List.isEmpty_iff, h4]
  | cons c cs' ih =>
    simp only [containsSeq, Bool.or_eq_true, ih, matchesAt_iff]
    constructor
    · rintro (⟨q, hq⟩ | ⟨p, q, hq⟩)
      · exact ⟨[], q, by simp [hq]⟩
      · exact ⟨c :: p, q, by simp [hq]⟩
    · rintro ⟨p, q, hq⟩
      cases p with
      | nil =>
        left
        exact ⟨q, by simpa using hq⟩
      | cons x p' =>
        right
        simp only [List.cons_append, List.cons.injEq] at hq
        exact ⟨p', q, hq.2⟩

theorem strContainsSub_iff (s pat : String) :
    strContainsSub s pat = true ↔ ∃ pre post : String, s = pre ++ pat ++ post := by
  rw [strContainsSub, containsSeq_iff]
  constructor
  · rintro ⟨p, q, hpq⟩
    refine ⟨⟨p⟩, ⟨q⟩, ?_⟩
    apply String.ext
    rw [String.data_append, String.data_append]
    exact hpq
  · rintro ⟨pre, post, hpq⟩
    exact ⟨pre.data, post.data, by rw [hpq, String.data_append, String.data_append]⟩

/-- C7 fails on the code as frozen: the error message embeds the trimmed
start-time cell, not the raw one. For the data row ["A", " xx "] (name column
0, start-time column 1) the raw start-time cell is " xx "; the parse aborts
with the message "failed to parse start time 'xx': unsupported time format:
xx", built from the trimmed cell "xx", and the raw cell " xx " occurs nowhere
in that message. -/
theorem markerRows_C7_counterexample :
    parseMarkersLoop [["A", " xx "]] 0 1
      = .error "failed to parse start time 'xx': unsupported time format: xx"
    ∧ ¬∃ pre post : String,
        "failed to parse start time 'xx': unsupported time format: xx"
          = pre ++ " xx " ++ post := by
  constructor
  · decide
  · intro hcon
    have hb : strContainsSub
        "failed to parse start time 'xx': unsupported time format: xx" " xx " = true :=
      (strContainsSub_iff _ _).mpr hcon
    have hf : strContainsSub
        "failed to parse start time 'xx': unsupported time format: xx" " xx " = false := by
      decide
    rw [hf] at hb
    exact Bool.noConfusion hb
